import Mathlib

/-!
Shallow embedding of the wg-portal AmneziaWG subsystem: the secure-link
encoder (configfile package), the advanced-security parameter validator and
provisioning-interface sanitizer (config package), and the config-file
coordinator event handlers.  Every definition is translated from the Go
sources; library calls (zlib compression, netip.ParsePrefix, the curve25519
public-key derivation) are abstracted as explicit function parameters.
-/

namespace WgPortal

/-- Model of Go unicode.IsSpace (the White_Space property), used by
strings.TrimSpace. -/
def isGoSpace (c : Char) : Bool :=
  c = ' ' || c = '\t' || c = '\n' ||
  (11 ≤ c.toNat && c.toNat ≤ 13) ||
  c.toNat = 0x85 || c.toNat = 0xA0 || c.toNat = 0x1680 ||
  (0x2000 ≤ c.toNat && c.toNat ≤ 0x200A) ||
  c.toNat = 0x2028 || c.toNat = 0x2029 || c.toNat = 0x202F ||
  c.toNat = 0x205F || c.toNat = 0x3000

/-- Go strings.TrimSpace: drop leading and trailing white space. -/
def goTrimSpace (s : String) : String :=
  String.mk (((s.toList.dropWhile isGoSpace).reverse.dropWhile isGoSpace).reverse)

/-- Go strings.ToLower, modelled on the ASCII range (the repository only
lower-cases ASCII mode strings). -/
def goToLower (s : String) : String :=
  String.mk (s.toList.map Char.toLower)

/-- Go strings.ReplaceAll(s, " ", ""): remove every space character. -/
def removeAllSpaces (s : String) : String :=
  String.mk (s.toList.filter (fun c => c ≠ ' '))

/-- Split a character list at every occurrence of the separator, keeping
empty segments, as Go strings.Split does. -/
def splitOnCharList (sep : Char) : List Char → List (List Char)
  | [] => [[]]
  | x :: xs =>
    if x = sep then [] :: splitOnCharList sep xs
    else
      match splitOnCharList sep xs with
      | [] => [[x]]
      | y :: ys => (x :: y) :: ys

/-- Go strings.Split(s, ","). -/
def goSplitComma (s : String) : List String :=
  (splitOnCharList ',' s.toList).map String.mk

/-- The per-item loop body of splitCsvOrDefault: trim each item and drop the
ones that are empty after trimming (the Go for/append loop). -/
def splitCsvItems : List String → List String
  | [] => []
  | item :: rest =>
    let it := goTrimSpace item
    if it = "" then splitCsvItems rest else it :: splitCsvItems rest

/-- Go configfile.splitCsvOrDefault. -/
def splitCsvOrDefault (value fallback : String) : List String :=
  let raw := goTrimSpace value
  let raw := if raw = "" then fallback else raw
  let raw := removeAllSpaces raw
  if raw = "" then [] else splitCsvItems (goSplitComma raw)

/-- Go configfile.pickDnsServers. -/
def pickDnsServers (dns : String) : String × String :=
  let parts := splitCsvOrDefault dns "1.1.1.1,1.0.0.1"
  (match parts with | [] => "1.1.1.1" | a :: _ => a,
   match parts with | _ :: b :: _ => b | _ => "1.0.0.1")

/-- Index of the last occurrence of a character, as Go strings.LastIndexByte. -/
def lastIndexOf (c : Char) : List Char → Option Nat
  | [] => none
  | x :: xs =>
    match lastIndexOf c xs with
    | some j => some (j + 1)
    | none => if x = c then some 0 else none

/-- Index of the first occurrence of a character, as Go strings.IndexByte. -/
def indexOfChar (c : Char) : List Char → Option Nat
  | [] => none
  | x :: xs => if x = c then some 0 else (indexOfChar c xs).map (· + 1)

/-- Go net.SplitHostPort: none models a non-nil error. -/
def goSplitHostPort (hostPort : String) : Option (String × String) :=
  let cs := hostPort.toList
  match lastIndexOf ':' cs with
  | none => none
  | some i =>
    match cs with
    | [] => none
    | c0 :: _ =>
      if c0 = '[' then
        match indexOfChar ']' cs with
        | none => none
        | some e =>
          if e + 1 = cs.length then none
          else if e + 1 = i then
            if indexOfChar '[' (cs.drop 1) ≠ none then none
            else if indexOfChar ']' (cs.drop (e + 1)) ≠ none then none
            else some (String.mk ((cs.drop 1).take (e - 1)), String.mk (cs.drop (i + 1)))
          else none
      else
        let host := cs.take i
        if indexOfChar ':' host ≠ none then none
        else if indexOfChar '[' cs ≠ none then none
        else if indexOfChar ']' cs ≠ none then none
        else some (String.mk host, String.mk (cs.drop (i + 1)))

/-- Fold a run of decimal digits, failing on any non-digit character. -/
def decDigitsLoop (n : Nat) : List Char → Option Nat
  | [] => some n
  | c :: rest =>
    if '0' ≤ c ∧ c ≤ '9' then decDigitsLoop (n * 10 + (c.toNat - 48)) rest
    else none

/-- Go strconv.Atoi (ParseInt with base 10 and the 64-bit int size). -/
def goAtoi (s : String) : Option Int :=
  let cs := s.toList
  let (neg, body) :=
    match cs with
    | '+' :: rest => (false, rest)
    | '-' :: rest => (true, rest)
    | _ => (false, cs)
  match body with
  | [] => none
  | _ =>
    match decDigitsLoop 0 body with
    | none => none
    | some n =>
      let v : Int := if neg then -(n : Int) else (n : Int)
      if v < -(2 ^ 63) ∨ 2 ^ 63 - 1 < v then none else some v

/-- Go configfile.parseEndpointHostPort. -/
def parseEndpointHostPort (endpoint : String) : String × Int :=
  let host := "127.0.0.1"
  let port : Int := 51820
  let endpoint := goTrimSpace endpoint
  if endpoint = "" then (host, port)
  else
    match goSplitHostPort endpoint with
    | none => (endpoint, port)
    | some (h, p) =>
      let h := goTrimSpace h
      let host := if h ≠ "" then h else host
      let port := match goAtoi p with | some pi => pi | none => port
      (host, port)

/-- Decimal digits of a positive natural number. -/
def natDigits (n : Nat) : List Char :=
  if h : n = 0 then []
  else natDigits (n / 10) ++ [Char.ofNat (48 + n % 10)]
termination_by n
decreasing_by exact Nat.div_lt_self (Nat.pos_of_ne_zero h) (by norm_num)

/-- Decimal rendering of a natural number, as Go strconv.Itoa on
non-negative values. -/
def natDec (n : Nat) : String :=
  if n = 0 then "0" else String.mk (natDigits n)

/-- Go strconv.Itoa on int values. -/
def intDec (i : Int) : String :=
  if i < 0 then "-" ++ natDec i.natAbs else natDec i.toNat

/-- Go configfile.u16ToString. -/
def u16ToString (v : Nat) : String := natDec v

/-- Go configfile.u16ToStringOptional. -/
def u16ToStringOptional (v : Nat) : String :=
  if v = 0 then "" else natDec v

/-! Data model: the fields of domain.AdvancedSecurity /
config.ProvisioningInterfaceAdvancedSecurity (identical field sets), and the
parts of domain.Peer / domain.Interface read by the secure-link encoder. -/

structure AdvancedSecurity where
  junkPacketCount : Nat
  junkPacketMinSize : Nat
  junkPacketMaxSize : Nat
  initPacketJunkSize : Nat
  responsePacketJunkSize : Nat
  cookieReplyPacketJunkSize : Nat
  transportPacketJunkSize : Nat
  initPacketMagicHeader : String
  responsePacketMagicHeader : String
  underloadPacketMagicHeader : String
  transportPacketMagicHeader : String
  firstSpecialJunkPacket : Option String
  secondSpecialJunkPacket : Option String
  thirdSpecialJunkPacket : Option String
  fourthSpecialJunkPacket : Option String
  fifthSpecialJunkPacket : Option String
deriving DecidableEq, Repr

/-- The all-zero advanced security block. -/
def AdvancedSecurity.zero : AdvancedSecurity :=
  ⟨0, 0, 0, 0, 0, 0, 0, "", "", "", "", none, none, none, none, none⟩

structure KeyPair where
  privateKey : String
  publicKey : String
deriving DecidableEq, Repr

/-- The fields of domain.Interface read by buildAmneziaAwgVpnLink; the
ConfigOption fields are modelled by their GetValue results and the address
list by the Addr strings of its entries. -/
structure PeerInterface where
  keyPair : KeyPair
  addresses : List String
  dnsStr : String
  mtu : Int
  advancedSecurity : Option AdvancedSecurity
deriving DecidableEq, Repr

/-- The fields of domain.Peer read by buildAmneziaAwgVpnLink. -/
structure Peer where
  endpoint : String
  endpointPublicKey : String
  allowedIPsStr : String
  presharedKey : String
  persistentKeepalive : Int
  interface : PeerInterface
deriving DecidableEq, Repr

/-- Go configfile.amneziaAwgBase. -/
structure AmneziaAwgBase where
  H1 : String
  H2 : String
  H3 : String
  H4 : String
  Jc : String
  Jmax : String
  Jmin : String
  S1 : String
  S2 : String
deriving DecidableEq, Repr

/-- Go configfile.amneziaAwgExtended. -/
structure AmneziaAwgExtended where
  S3 : String
  S4 : String
  I1 : String
  I2 : String
  I3 : String
  I4 : String
  I5 : String
deriving DecidableEq, Repr

/-- Go configfile.amneziaAwgBaseParams. -/
def amneziaAwgBaseParams (adv : Option AdvancedSecurity) : AmneziaAwgBase :=
  match adv with
  | none => ⟨"", "", "", "", "", "", "", "", ""⟩
  | some adv =>
    { H1 := goTrimSpace adv.initPacketMagicHeader
      H2 := goTrimSpace adv.responsePacketMagicHeader
      H3 := goTrimSpace adv.underloadPacketMagicHeader
      H4 := goTrimSpace adv.transportPacketMagicHeader
      Jc := u16ToString adv.junkPacketCount
      Jmax := u16ToString adv.junkPacketMaxSize
      Jmin := u16ToString adv.junkPacketMinSize
      S1 := u16ToString adv.initPacketJunkSize
      S2 := u16ToString adv.responsePacketJunkSize }

/-- Go configfile.amneziaAwgExtendedParams. -/
def amneziaAwgExtendedParams (adv : Option AdvancedSecurity) : AmneziaAwgExtended :=
  match adv with
  | none => ⟨"", "", "", "", "", "", ""⟩
  | some adv =>
    { S3 := u16ToStringOptional adv.cookieReplyPacketJunkSize
      S4 := u16ToStringOptional adv.transportPacketJunkSize
      I1 := match adv.firstSpecialJunkPacket with | some v => goTrimSpace v | none => ""
      I2 := match adv.secondSpecialJunkPacket with | some v => goTrimSpace v | none => ""
      I3 := match adv.thirdSpecialJunkPacket with | some v => goTrimSpace v | none => ""
      I4 := match adv.fourthSpecialJunkPacket with | some v => goTrimSpace v | none => ""
      I5 := match adv.fifthSpecialJunkPacket with | some v => goTrimSpace v | none => "" }

/-! JSON serialization, modelling Go encoding/json on the structs of the
configfile package (struct fields are emitted in declaration order, string
fields tagged omitempty are dropped when empty, and the encoder escapes
HTML-significant characters). -/

/-- Lower-case hexadecimal digit. -/
def jsonHexDigit (n : Nat) : Char :=
  if n < 10 then Char.ofNat (48 + n) else Char.ofNat (87 + n)

/-- Escape one character the way Go encoding/json (with its default HTML
escaping) renders it inside a string literal. -/
def goJsonEscapeChar (c : Char) : List Char :=
  if c = '"' then ['\\', '"']
  else if c = '\\' then ['\\', '\\']
  else if c = '\n' then ['\\', 'n']
  else if c = '\r' then ['\\', 'r']
  else if c = '\t' then ['\\', 't']
  else if c.toNat < 0x20 ∨ c = '<' ∨ c = '>' ∨ c = '&' then
    ['\\', 'u', '0', '0', jsonHexDigit (c.toNat / 16), jsonHexDigit (c.toNat % 16)]
  else if c.toNat = 0x2028 ∨ c.toNat = 0x2029 then
    ['\\', 'u', '2', '0', '2', jsonHexDigit (c.toNat % 16)]
  else [c]

/-- A JSON string literal as Go encoding/json writes it. -/
def goJsonQuote (s : String) : String :=
  "\"" ++ String.mk (s.toList.foldr (fun c acc => goJsonEscapeChar c ++ acc) []) ++ "\""

inductive Json where
  | str (s : String)
  | num (n : Int)
  | arr (elems : List Json)
  | obj (fields : List (String × Json))
deriving Repr

mutual

/-- Compact rendering, as Go json.Marshal. -/
def Json.render : Json → String
  | .str s => goJsonQuote s
  | .num n => intDec n
  | .arr elems => "[" ++ Json.renderElems elems ++ "]"
  | .obj fields => "\x7b" ++ Json.renderFields fields ++ "\x7d"

def Json.renderElems : List Json → String
  | [] => ""
  | [j] => j.render
  | j :: rest => j.render ++ "," ++ Json.renderElems rest

def Json.renderFields : List (String × Json) → String
  | [] => ""
  | [(k, v)] => goJsonQuote k ++ ":" ++ v.render
  | (k, v) :: rest => goJsonQuote k ++ ":" ++ v.render ++ "," ++ Json.renderFields rest

end

/-- The keys of a JSON object field list. -/
def jsonKeys (fields : List (String × Json)) : List String :=
  fields.map Prod.fst

/-- A string field carrying the json omitempty option: present iff the value
is non-empty. -/
def omitemptyStr (key val : String) : List (String × Json) :=
  if val = "" then [] else [(key, .str val)]

/-- The leading JSON fields shared by the amneziaAwgContainer and
amneziaAwgLastConfig structs: H1..S2 are plain string fields, S3/S4 and
I1..I5 carry omitempty. -/
def awgParamFields (b : AmneziaAwgBase) (e : AmneziaAwgExtended) : List (String × Json) :=
  [("H1", .str b.H1), ("H2", .str b.H2), ("H3", .str b.H3), ("H4", .str b.H4),
   ("Jc", .str b.Jc), ("Jmax", .str b.Jmax), ("Jmin", .str b.Jmin),
   ("S1", .str b.S1), ("S2", .str b.S2)]
  ++ omitemptyStr "S3" e.S3 ++ omitemptyStr "S4" e.S4
  ++ omitemptyStr "I1" e.I1 ++ omitemptyStr "I2" e.I2 ++ omitemptyStr "I3" e.I3
  ++ omitemptyStr "I4" e.I4 ++ omitemptyStr "I5" e.I5

/-- The JSON fields of Go configfile.amneziaAwgContainer.Awg
(struct amneziaAwgContainer.Awg field order). -/
def amneziaAwgContainerFields (b : AmneziaAwgBase) (e : AmneziaAwgExtended)
    (lastConfig port : String) : List (String × Json) :=
  awgParamFields b e
  ++ [("last_config", .str lastConfig), ("port", .str port),
      ("transport_proto", .str "udp")]

/-- The JSON fields of Go configfile.amneziaAwgLastConfig. -/
def amneziaAwgLastConfigFields (b : AmneziaAwgBase) (e : AmneziaAwgExtended)
    (allowedIPs : List String) (clientId clientIP clientPrivKey clientPubKey : String)
    (config hostName mtu persistentKeepAlive : String) (port : Int)
    (pskKey serverPubKey : String) : List (String × Json) :=
  awgParamFields b e
  ++ [("allowed_ips", .arr (allowedIPs.map .str)),
      ("clientId", .str clientId), ("client_ip", .str clientIP),
      ("client_priv_key", .str clientPrivKey), ("client_pub_key", .str clientPubKey),
      ("config", .str config), ("hostName", .str hostName), ("mtu", .str mtu),
      ("persistent_keep_alive", .str persistentKeepAlive), ("port", .num port),
      ("psk_key", .str pskKey), ("server_pub_key", .str serverPubKey)]

/-- The JSON fields of Go configfile.amneziaEnvelope. -/
def amneziaEnvelopeFields (containerFields : List (String × Json))
    (description dns1 dns2 hostName : String) : List (String × Json) :=
  [("containers", .arr [.obj [("awg", .obj containerFields),
                              ("container", .str "amnezia-awg")]]),
   ("defaultContainer", .str "amnezia-awg"),
   ("description", .str description),
   ("dns1", .str dns1), ("dns2", .str dns2),
   ("hostName", .str hostName)]

/-! Binary framing: qtQCompress and URL-safe base64 without padding. -/

/-- UTF-8 encoding of one character. -/
def charUtf8 (c : Char) : List Nat :=
  let n := c.toNat
  if n < 0x80 then [n]
  else if n < 0x800 then [0xC0 + n / 64, 0x80 + n % 64]
  else if n < 0x10000 then [0xE0 + n / 4096, 0x80 + n / 64 % 64, 0x80 + n % 64]
  else [0xF0 + n / 262144, 0x80 + n / 4096 % 64, 0x80 + n / 64 % 64, 0x80 + n % 64]

/-- The UTF-8 bytes of a string (Go []byte(s)). -/
def strBytes (s : String) : List Nat :=
  s.toList.foldr (fun c acc => charUtf8 c ++ acc) []

/-- Big-endian 4-byte encoding, as binary.BigEndian.PutUint32 after the Go
uint32 conversion (the value is taken modulo 2^32). -/
def beUint32 (n : Nat) : List Nat :=
  [n / 2 ^ 24 % 256, n / 2 ^ 16 % 256, n / 2 ^ 8 % 256, n % 256]

/-- Abstract model of the compress/zlib writer and reader pair; the round
trip property is a hypothesis of the theorems that use it. -/
structure ZlibModel where
  compress : List Nat → Int → List Nat
  decompress : List Nat → Option (List Nat)

/-- zlib.NewWriterLevel accepts levels between HuffmanOnly (-2) and
BestCompression (9). -/
def zlibValidLevel (level : Int) : Bool :=
  -2 ≤ level && level ≤ 9

/-- Go configfile.qtQCompress: 4-byte big-endian uncompressed size, then the
zlib stream; none models the error for an invalid compression level (writes
to a bytes.Buffer cannot fail). -/
def qtQCompress (z : ZlibModel) (data : List Nat) (level : Int) : Option (List Nat) :=
  if zlibValidLevel level then some (beUint32 data.length ++ z.compress data level)
  else none

/-- The URL-safe base64 alphabet of Go base64.RawURLEncoding. -/
def base64Alphabet : List Char :=
  "ABCDEFGHIJKLMNOPQRSTUVWXYZabcdefghijklmnopqrstuvwxyz0123456789-_".toList

def b64c (n : Nat) : Char :=
  base64Alphabet.getD n 'A'

/-- Unpadded URL-safe base64, as Go base64.RawURLEncoding.EncodeToString. -/
def base64RawUrlEncode : List Nat → List Char
  | [] => []
  | [a] => [b64c (a / 4), b64c (a % 4 * 16)]
  | [a, b] => [b64c (a / 4), b64c (a % 4 * 16 + b / 16), b64c (b % 16 * 4)]
  | a :: b :: c :: rest =>
    [b64c (a / 4), b64c (a % 4 * 16 + b / 16), b64c (b % 16 * 4 + c / 64), b64c (c % 64)]
    ++ base64RawUrlEncode rest

/-- The serialized inner last_config record built by buildAmneziaAwgVpnLink
for a peer whose interface carries an advanced security block. -/
def amneziaLastConfigJson (publicKeyFromPrivateKey : String → String)
    (peer : Peer) (configText : String) : String :=
  let (endpointHost, endpointPort) := parseEndpointHostPort peer.endpoint
  let privKey := peer.interface.keyPair.privateKey
  let clientPubKey :=
    if publicKeyFromPrivateKey privKey = "" then peer.interface.keyPair.publicKey
    else publicKeyFromPrivateKey privKey
  let clientIP := match peer.interface.addresses with
    | [] => ""
    | a :: _ => goTrimSpace a
  let allowedIPs := splitCsvOrDefault peer.allowedIPsStr "0.0.0.0/0,::/0"
  let mtuStr := if peer.interface.mtu ≠ 0 then intDec peer.interface.mtu else "1280"
  let keepAliveStr :=
    if peer.persistentKeepalive ≠ 0 then intDec peer.persistentKeepalive else "25"
  let serverPubKey := goTrimSpace peer.endpointPublicKey
  let psk := goTrimSpace peer.presharedKey
  let base := amneziaAwgBaseParams peer.interface.advancedSecurity
  let ext := amneziaAwgExtendedParams peer.interface.advancedSecurity
  (Json.obj (amneziaAwgLastConfigFields base ext allowedIPs clientPubKey clientIP
    privKey clientPubKey configText endpointHost mtuStr keepAliveStr endpointPort
    psk serverPubKey)).render

/-- The serialized outer envelope built by buildAmneziaAwgVpnLink. -/
def amneziaVpnPayload (publicKeyFromPrivateKey : String → String)
    (peer : Peer) (description configText : String) : String :=
  let (endpointHost, endpointPort) := parseEndpointHostPort peer.endpoint
  let (dns1, dns2) := pickDnsServers peer.interface.dnsStr
  let base := amneziaAwgBaseParams peer.interface.advancedSecurity
  let ext := amneziaAwgExtendedParams peer.interface.advancedSecurity
  let lastCfgJSON := amneziaLastConfigJson publicKeyFromPrivateKey peer configText
  (Json.obj (amneziaEnvelopeFields
    (amneziaAwgContainerFields base ext lastCfgJSON (intDec endpointPort))
    description dns1 dns2 endpointHost)).render

/-- Go configfile.buildAmneziaAwgVpnLink.  The nil peer pointer is modelled
with Option, the curve25519 derivation domain.PublicKeyFromPrivateKey is an
explicit function parameter, and compression is the abstract zlib model
(json.Marshal cannot fail on these struct types, so no serialization error
path exists in the embedding). -/
def buildAmneziaAwgVpnLink (z : ZlibModel) (publicKeyFromPrivateKey : String → String)
    (peer : Option Peer) (description configText : String) : Except String String :=
  match peer with
  | none => .error "nil peer"
  | some peer =>
    match peer.interface.advancedSecurity with
    | none => .error "missing advanced security"
    | some _ =>
      let envelopeJSON := amneziaVpnPayload publicKeyFromPrivateKey peer description configText
      match qtQCompress z (strBytes envelopeJSON) 8 with
      | none => .error "zlib writer"
      | some compressed => .ok ("vpn://" ++ String.mk (base64RawUrlEncode compressed))

/-! Advanced-security validation (config package). -/

/-- config.maxAwgStringLen: the wgctrl ioctl buffer limit. -/
def maxAwgStringLen : Nat := 5 * 1024

/-- Go lower(c) = c | 0x20 on ASCII bytes. -/
def lowerByte (c : Char) : Char :=
  Char.ofNat (c.toNat % 256 ||| 0x20)

/-- One step of a digit character in any base up to 36, as strconv. -/
def charDigit (c : Char) : Option Nat :=
  if '0' ≤ c ∧ c ≤ '9' then some (c.toNat - 48)
  else if 'a' ≤ c ∧ c ≤ 'z' then some (c.toNat - 97 + 10)
  else if 'A' ≤ c ∧ c ≤ 'Z' then some (c.toNat - 65 + 10)
  else none

/-- The digit loop of strconv.ParseUint with base argument 0: underscores
are tolerated here and checked afterwards; returns the value and whether an
underscore was seen. -/
def parseUintDigits (base : Nat) (n : Nat) (sawUnderscore : Bool) :
    List Char → Option (Nat × Bool)
  | [] => some (n, sawUnderscore)
  | c :: rest =>
    if c = '_' then parseUintDigits base n true rest
    else
      match charDigit c with
      | none => none
      | some d =>
        if base ≤ d then none
        else parseUintDigits base (n * base + d) sawUnderscore rest

/-- The loop of strconv's underscoreOK after the optional sign and base
prefix: saw is the Go state character. -/
def underscoreLoop (hex : Bool) : Char → List Char → Bool
  | saw, [] => saw ≠ '_'
  | saw, c :: rest =>
    if ('0' ≤ c ∧ c ≤ '9') ∨ (hex ∧ 'a' ≤ lowerByte c ∧ lowerByte c ≤ 'f') then
      underscoreLoop hex '0' rest
    else if c = '_' then
      if saw ≠ '0' then false else underscoreLoop hex '_' rest
    else if saw = '_' then false
    else underscoreLoop hex '!' rest

/-- strconv's underscoreOK: underscores may appear only between digits or
between the base prefix and a digit. -/
def underscoreOKGo (cs : List Char) : Bool :=
  let cs := match cs with
    | c :: rest => if c = '-' ∨ c = '+' then rest else c :: rest
    | [] => []
  match cs with
  | '0' :: c :: rest =>
    if lowerByte c = 'b' ∨ lowerByte c = 'o' ∨ lowerByte c = 'x' then
      underscoreLoop (lowerByte c = 'x') '0' rest
    else underscoreLoop false '^' ('0' :: c :: rest)
  | _ => underscoreLoop false '^' cs

/-- strconv.ParseUint(s, 0, 32): base detection from the prefix, digit
accumulation, underscore validation, and the 32-bit range check. -/
def goParseUint0u32 (str : String) : Option Nat :=
  let s0 := str.toList
  match s0 with
  | [] => none
  | _ =>
    let (base, body) :=
      match s0 with
      | '0' :: c :: rest =>
        if rest ≠ [] ∧ lowerByte c = 'b' then (2, rest)
        else if rest ≠ [] ∧ lowerByte c = 'o' then (8, rest)
        else if rest ≠ [] ∧ lowerByte c = 'x' then (16, rest)
        else (8, c :: rest)
      | _ => (10, s0)
    match parseUintDigits base 0 false body with
    | none => none
    | some (n, sawUnderscore) =>
      if sawUnderscore ∧ ¬ underscoreOKGo s0 then none
      else if 2 ^ 32 - 1 < n then none
      else some n

/-- Go config.validateAwgUint32IfSet: true means no error. -/
def validateAwgUint32IfSet (raw : String) : Bool :=
  let val := goTrimSpace raw
  if val = "" then true else (goParseUint0u32 val).isSome

inductive AwgStrErr where
  | mustNotBeEmpty
  | tooLong
deriving DecidableEq, Repr

/-- Go config.validateAwgStringPtr: on success the trimmed value is written
back through the pointer, which the returned option models. -/
def validateAwgStringPtr (raw : Option String) : Except AwgStrErr (Option String) :=
  match raw with
  | none => .ok none
  | some v =>
    let val := goTrimSpace v
    if val = "" then .error .mustNotBeEmpty
    else if maxAwgStringLen ≤ (strBytes val).length then .error .tooLong
    else .ok (some val)

inductive AwgErr where
  | jminJmaxRequired
  | jminGtJmax
  | badMagicHeader (which : Nat)
  | badSpecialJunk (which : Nat) (e : AwgStrErr)
deriving DecidableEq, Repr

/-- The outcome of validateAdvancedSecurity: the error, if any, and the
final state of the (possibly mutated) parameter block. -/
structure AwgValidation where
  err : Option AwgErr
  final : AdvancedSecurity
deriving DecidableEq, Repr

/-- The special-junk-packet sequence of config.validateAdvancedSecurity:
each successful check writes the trimmed value back into the block before
the next check runs. -/
def validateAwgSpecialJunk (s : AdvancedSecurity) : AwgValidation :=
  match validateAwgStringPtr s.firstSpecialJunkPacket with
  | .error e => ⟨some (.badSpecialJunk 1 e), s⟩
  | .ok v1 =>
  let s := { s with firstSpecialJunkPacket := v1 }
  match validateAwgStringPtr s.secondSpecialJunkPacket with
  | .error e => ⟨some (.badSpecialJunk 2 e), s⟩
  | .ok v2 =>
  let s := { s with secondSpecialJunkPacket := v2 }
  match validateAwgStringPtr s.thirdSpecialJunkPacket with
  | .error e => ⟨some (.badSpecialJunk 3 e), s⟩
  | .ok v3 =>
  let s := { s with thirdSpecialJunkPacket := v3 }
  match validateAwgStringPtr s.fourthSpecialJunkPacket with
  | .error e => ⟨some (.badSpecialJunk 4 e), s⟩
  | .ok v4 =>
  let s := { s with fourthSpecialJunkPacket := v4 }
  match validateAwgStringPtr s.fifthSpecialJunkPacket with
  | .error e => ⟨some (.badSpecialJunk 5 e), s⟩
  | .ok v5 =>
  ⟨none, { s with fifthSpecialJunkPacket := v5 }⟩

/-- The magic-header sequence of config.validateAdvancedSecurity. -/
def validateAwgHeaders (s : AdvancedSecurity) : AwgValidation :=
  if ¬ validateAwgUint32IfSet s.initPacketMagicHeader then ⟨some (.badMagicHeader 1), s⟩
  else if ¬ validateAwgUint32IfSet s.responsePacketMagicHeader then ⟨some (.badMagicHeader 2), s⟩
  else if ¬ validateAwgUint32IfSet s.underloadPacketMagicHeader then ⟨some (.badMagicHeader 3), s⟩
  else if ¬ validateAwgUint32IfSet s.transportPacketMagicHeader then ⟨some (.badMagicHeader 4), s⟩
  else validateAwgSpecialJunk s

/-- Go config.validateAdvancedSecurity.  The jc = 0 branch with jmin or
jmax set only logs a warning and continues. -/
def validateAdvancedSecurity (s : AdvancedSecurity) : AwgValidation :=
  if 0 < s.junkPacketCount then
    if s.junkPacketMinSize = 0 ∨ s.junkPacketMaxSize = 0 then ⟨some .jminJmaxRequired, s⟩
    else if s.junkPacketMaxSize < s.junkPacketMinSize then ⟨some .jminGtJmax, s⟩
    else validateAwgHeaders s
  else validateAwgHeaders s

/-! Provisioning-interface sanitization (config package). -/

/-- The fields of config.ProvisioningInterface read by
sanitizeProvisioningInterfaces. -/
structure ProvisioningInterface where
  identifier : String
  mode : String
  listenPort : Int
  mtu : Int
  peerDefMtu : Int
  addresses : List String
  peerDefAllowedIPs : List String
  peerDefNetwork : List String
  advancedSecurity : Option AdvancedSecurity
deriving DecidableEq, Repr

inductive IfaceErr where
  | badMode
  | badListenPort
  | badMtu
  | badPeerDefMtu
  | badCidr (field : String) (idx : Nat)
  | advancedSecurityNotSupported
  | advancedSecurityInvalid (e : AwgErr)
deriving DecidableEq, Repr

inductive ProvErr where
  | emptyIdentifier (idx : Nat)
  | duplicateIdentifier (id : String)
  | interfaceErr (id : String) (e : IfaceErr)
deriving DecidableEq, Repr

/-- Go config.validateCidrArray: parsePrefixOk abstracts
netip.ParsePrefix; the result is the index of the first bad entry. -/
def validateCidrArrayLoop (parsePrefixOk : String → Bool) (i : Nat) :
    List String → Option Nat
  | [] => none
  | raw :: rest =>
    let val := goTrimSpace raw
    if val = "" then some i
    else if ¬ parsePrefixOk val then some i
    else validateCidrArrayLoop parsePrefixOk (i + 1) rest

/-- The per-interface checks of sanitizeProvisioningInterfaces after the
identifier and mode checks, in source order: listen port, MTUs, CIDR
arrays, advanced security. -/
def checkProvisioningInterfaceRest (parsePrefixOk : String → Bool) (wgMode : String)
    (iface : ProvisioningInterface) : Except IfaceErr ProvisioningInterface :=
  if iface.listenPort ≠ 0 ∧ (iface.listenPort < 1 ∨ 65535 < iface.listenPort) then
    .error .badListenPort
  else if iface.mtu < 0 then .error .badMtu
  else if iface.peerDefMtu < 0 then .error .badPeerDefMtu
  else
    match validateCidrArrayLoop parsePrefixOk 0 iface.addresses with
    | some i => .error (.badCidr "addresses" i)
    | none =>
    match validateCidrArrayLoop parsePrefixOk 0 iface.peerDefAllowedIPs with
    | some i => .error (.badCidr "peer_def_allowed_ips" i)
    | none =>
    match validateCidrArrayLoop parsePrefixOk 0 iface.peerDefNetwork with
    | some i => .error (.badCidr "peer_def_network" i)
    | none =>
    match iface.advancedSecurity with
    | none => .ok iface
    | some adv =>
      if wgMode ≠ "amneziawg" then .error .advancedSecurityNotSupported
      else
        match validateAdvancedSecurity adv with
        | ⟨some e, _⟩ => .error (.advancedSecurityInvalid e)
        | ⟨none, adv'⟩ => .ok { iface with advancedSecurity := some adv' }

/-- The per-interface checks of sanitizeProvisioningInterfaces after the
identifier checks: the mode check and normalization, then the remaining
checks.  On success the interface with its normalized mode and
advanced-security block is returned. -/
def checkProvisioningInterface (parsePrefixOk : String → Bool) (wgMode : String)
    (iface : ProvisioningInterface) : Except IfaceErr ProvisioningInterface :=
  let mode := goToLower (goTrimSpace iface.mode)
  if mode ≠ "" ∧ mode ≠ "server" ∧ mode ≠ "client" ∧ mode ≠ "any" then .error .badMode
  else
    checkProvisioningInterfaceRest parsePrefixOk wgMode
      (if mode ≠ "" then { iface with mode := mode } else iface)

/-- The loop of config.sanitizeProvisioningInterfaces: idx is the input
index, seen the set of identifiers already accepted. -/
def sanitizeLoop (parsePrefixOk : String → Bool) (wgMode : String) :
    Nat → List String → List ProvisioningInterface →
    Except ProvErr (List ProvisioningInterface)
  | _, _, [] => .ok []
  | idx, seen, iface :: rest =>
    let id := goTrimSpace iface.identifier
    if id = "" then .error (.emptyIdentifier idx)
    else if id ∈ seen then .error (.duplicateIdentifier id)
    else
      match checkProvisioningInterface parsePrefixOk wgMode { iface with identifier := id } with
      | .error e => .error (.interfaceErr id e)
      | .ok iface' =>
        match sanitizeLoop parsePrefixOk wgMode (idx + 1) (id :: seen) rest with
        | .error e => .error e
        | .ok rest' => .ok (iface' :: rest')

/-- Go config.sanitizeProvisioningInterfaces. -/
def sanitizeProvisioningInterfaces (parsePrefixOk : String → Bool) (wgMode : String)
    (ifaces : List ProvisioningInterface) : Except ProvErr (List ProvisioningInterface) :=
  if ifaces.length = 0 then .ok ifaces
  else sanitizeLoop parsePrefixOk wgMode 0 [] ifaces

/-- The parts of config.Config read by Config.Sanitize. -/
structure ConfigModel where
  coreWireGuardMode : String
  provisioningInterfaces : List ProvisioningInterface
deriving DecidableEq, Repr

inductive ConfigErr where
  | invalidWireGuardMode (mode : String)
  | prov (e : ProvErr)
deriving DecidableEq, Repr

/-- Go config.Config.Sanitize: normalize and check the WireGuard mode, then
sanitize the provisioning interfaces. -/
def configSanitize (parsePrefixOk : String → Bool) (cfg : ConfigModel) :
    Except ConfigErr ConfigModel :=
  let mode := goTrimSpace (goToLower cfg.coreWireGuardMode)
  let mode := if mode = "" then "disabled" else mode
  if mode = "disabled" ∨ mode = "wireguard" ∨ mode = "amneziawg" then
    match sanitizeProvisioningInterfaces parsePrefixOk mode cfg.provisioningInterfaces with
    | .error e => .error (.prov e)
    | .ok ifaces => .ok { coreWireGuardMode := mode, provisioningInterfaces := ifaces }
  else .error (.invalidWireGuardMode mode)

/-! Config-file coordinator (configfile.Manager event handlers), with the
collaborators of §6 as explicit oracles and the file-system calls recorded
as a trace. -/

/-- The fields of domain.Interface read by the coordinator handlers;
GetConfigFileName is modelled as a stored attribute since the domain
package only derives it from the identifier. -/
structure InterfaceRec where
  identifier : String
  saveConfig : Bool
  configFileName : String
deriving DecidableEq, Repr

inductive FsOp where
  | write (path contents : String)
  | delete (path : String)
deriving DecidableEq, Repr

/-- The collaborators of configfile.Manager: the wireguard repository, the
template renderer and the file-system sink. -/
structure ConfigFileEnv where
  getInterfaceAndPeers : String → Except String (InterfaceRec × List String)
  renderInterfaceConfig : InterfaceRec → List String → Except String String
  writeFile : String → String → Except String Unit
  deleteFile : String → Except String Unit

/-- Go configfile.Manager.PersistInterfaceConfig: the result and the trace
of file-system calls performed. -/
def persistInterfaceConfig (env : ConfigFileEnv) (id : String) :
    Except String Unit × List FsOp :=
  match env.getInterfaceAndPeers id with
  | .error e => (.error ("failed to fetch interface: " ++ e), [])
  | .ok (iface, peers) =>
    match env.renderInterfaceConfig iface peers with
    | .error e => (.error ("failed to get interface config: " ++ e), [])
    | .ok cfg =>
      match env.writeFile iface.configFileName cfg with
      | .error e => (.error ("failed to write interface config: " ++ e),
                     [.write iface.configFileName cfg])
      | .ok _ => (.ok (), [.write iface.configFileName cfg])

/-- Go configfile.Manager.UnpersistInterfaceConfig. -/
def unpersistInterfaceConfig (env : ConfigFileEnv) (filename : String) :
    Except String Unit × List FsOp :=
  match env.deleteFile filename with
  | .error e => (.error ("failed to remove interface config: " ++ e), [.delete filename])
  | .ok _ => (.ok (), [.delete filename])

/-- Go configfile.Manager.handleInterfaceSavedEvent (interface-created and
interface-updated events): the trace of file-system calls. -/
def handleInterfaceSavedEvent (env : ConfigFileEnv) (iface : InterfaceRec) : List FsOp :=
  if ¬ iface.saveConfig then [] else (persistInterfaceConfig env iface.identifier).2

/-- Go configfile.Manager.handleInterfaceDeleteEvent (interface-deleted
events): the trace of file-system calls. -/
def handleInterfaceDeleteEvent (env : ConfigFileEnv) (iface : InterfaceRec) : List FsOp :=
  if ¬ iface.saveConfig then [] else (unpersistInterfaceConfig env iface.configFileName).2

/-! Spec-side reformulations and predicates used to state the claims. -/

/-- Modelled from the spec's CSV rule as amended: substitute the fallback
when the trimmed input is empty, remove every space character, split on
commas, trim each entry and drop entries empty after trimming. -/
def specSplitCsv (value fallback : String) : List String :=
  let raw := goTrimSpace value
  let raw := if raw = "" then fallback else raw
  ((goSplitComma (removeAllSpaces raw)).map goTrimSpace).filter (fun s => s ≠ "")

/-- The trimmed identifier of a provisioning interface. -/
def trimId (i : ProvisioningInterface) : String :=
  goTrimSpace i.identifier

/-- The normalized mode of a provisioning interface. -/
def normMode (i : ProvisioningInterface) : String :=
  goToLower (goTrimSpace i.mode)

/-- An invalid (non-empty, unrecognized) mode string. -/
def provBadMode (i : ProvisioningInterface) : Prop :=
  normMode i ≠ "" ∧ normMode i ≠ "server" ∧ normMode i ≠ "client" ∧ normMode i ≠ "any"

instance (i : ProvisioningInterface) : Decidable (provBadMode i) := by
  unfold provBadMode; infer_instance

/-- The identifier/mode violations named by the claim: an empty trimmed
identifier, a duplicated trimmed identifier, or an invalid mode. -/
def hasIdModeViolation (l : List ProvisioningInterface) : Prop :=
  (∃ i ∈ l, trimId i = "") ∨ ¬ (l.map trimId).Nodup ∨ (∃ i ∈ l, provBadMode i)

instance (l : List ProvisioningInterface) : Decidable (hasIdModeViolation l) := by
  unfold hasIdModeViolation; infer_instance

/-- True of errors that are not identifier or mode violations. -/
def idModeFree : ProvErr → Prop
  | .emptyIdentifier _ => False
  | .duplicateIdentifier _ => False
  | .interfaceErr _ .badMode => False
  | .interfaceErr _ _ => True

/-- A non-nil special junk packet whose trimmed value is non-empty. -/
def optTrimNonempty (o : Option String) : Prop :=
  ∃ t, o = some t ∧ goTrimSpace t ≠ ""

/-! Concrete inputs used by the witnesses. -/

/-- The identity compression model: a valid round-tripping instance of the
abstract zlib pair. -/
def idZlib : ZlibModel :=
  ⟨fun d _ => d, fun d => some d⟩

/-- A derivation function for witnesses that always falls back to the
stored public key. -/
def pkNone : String → String := fun _ => ""

/-- A concrete peer whose interface carries the zero advanced-security
block. -/
def peerW : Peer :=
  { endpoint := "203.0.113.1:51820"
    endpointPublicKey := "srv"
    allowedIPsStr := ""
    presharedKey := ""
    persistentKeepalive := 0
    interface :=
      { keyPair := ⟨"priv", "pub"⟩
        addresses := ["10.0.0.2/32"]
        dnsStr := ""
        mtu := 0
        advancedSecurity := some AdvancedSecurity.zero } }

/-- The same peer without an advanced-security block. -/
def peerWNoAdv : Peer :=
  { peerW with interface := { peerW.interface with advancedSecurity := none } }

/-- An advanced-security block violating the junk range rule. -/
def advBadRange : AdvancedSecurity :=
  { AdvancedSecurity.zero with junkPacketCount := 1, junkPacketMinSize := 0, junkPacketMaxSize := 0 }

/-- A parse-prefix oracle accepting everything, for witnesses. -/
def ppAll : String → Bool := fun _ => true

/-- A provisioning interface named wg0 with no other fields set. -/
def ifaceWg0 : ProvisioningInterface :=
  ⟨"wg0", "", 0, 0, 0, [], [], [], none⟩

/-- A provisioning interface named wg1 carrying the zero advanced-security
block. -/
def ifaceWg1Adv : ProvisioningInterface :=
  ⟨"wg1", "", 0, 0, 0, [], [], [], some AdvancedSecurity.zero⟩

/-- A coordinator environment whose oracles never succeed in fetching, for
witnesses. -/
def envW : ConfigFileEnv :=
  ⟨fun _ => .error "db", fun _ _ => .error "tpl", fun _ _ => .ok (), fun _ => .ok ()⟩

/-- An interface record with SaveConfig unset. -/
def ifaceRecW : InterfaceRec :=
  ⟨"wg0", false, "wg0.conf"⟩

/-- A config in plain WireGuard mode whose provisioning spec carries an
advanced-security block. -/
def cfgW : ConfigModel :=
  ⟨"wireguard", [ifaceWg1Adv]⟩

/-- An advanced-security block whose first special junk packet carries
surrounding whitespace. -/
def advTrimCase : AdvancedSecurity :=
  { AdvancedSecurity.zero with firstSpecialJunkPacket := some " x " }

/-- An advanced-security block with a coherent junk range but an unparsable
magic header. -/
def advBadHeaderRange : AdvancedSecurity :=
  { AdvancedSecurity.zero with
      junkPacketCount := 1
      junkPacketMinSize := 1
      junkPacketMaxSize := 2
      initPacketMagicHeader := "x" }

/-- Amended frame property of validateAdvancedSecurity: every field except
the five special-junk-packet strings is unchanged, and each of those five is
either unchanged or replaced by its trimmed value. -/
def FramePreserved (s t : AdvancedSecurity) : Prop :=
  t.junkPacketCount = s.junkPacketCount ∧
  t.junkPacketMinSize = s.junkPacketMinSize ∧
  t.junkPacketMaxSize = s.junkPacketMaxSize ∧
  t.initPacketJunkSize = s.initPacketJunkSize ∧
  t.responsePacketJunkSize = s.responsePacketJunkSize ∧
  t.cookieReplyPacketJunkSize = s.cookieReplyPacketJunkSize ∧
  t.transportPacketJunkSize = s.transportPacketJunkSize ∧
  t.initPacketMagicHeader = s.initPacketMagicHeader ∧
  t.responsePacketMagicHeader = s.responsePacketMagicHeader ∧
  t.underloadPacketMagicHeader = s.underloadPacketMagicHeader ∧
  t.transportPacketMagicHeader = s.transportPacketMagicHeader ∧
  (t.firstSpecialJunkPacket = s.firstSpecialJunkPacket ∨
   t.firstSpecialJunkPacket = s.firstSpecialJunkPacket.map goTrimSpace) ∧
  (t.secondSpecialJunkPacket = s.secondSpecialJunkPacket ∨
   t.secondSpecialJunkPacket = s.secondSpecialJunkPacket.map goTrimSpace) ∧
  (t.thirdSpecialJunkPacket = s.thirdSpecialJunkPacket ∨
   t.thirdSpecialJunkPacket = s.thirdSpecialJunkPacket.map goTrimSpace) ∧
  (t.fourthSpecialJunkPacket = s.fourthSpecialJunkPacket ∨
   t.fourthSpecialJunkPacket = s.fourthSpecialJunkPacket.map goTrimSpace) ∧
  (t.fifthSpecialJunkPacket = s.fifthSpecialJunkPacket ∨
   t.fifthSpecialJunkPacket = s.fifthSpecialJunkPacket.map goTrimSpace)

/-- Big-endian byte-sequence decoding, inverse of beUint32. -/
def beBytesToNat (l : List Nat) : Nat :=
  l.foldl (fun a b => a * 256 + b) 0

/-! Theorems. -/

theorem beUint32_length (n : Nat) : (beUint32 n).length = 4 := rfl

theorem beBytesToNat_beUint32 (n : Nat) : beBytesToNat (beUint32 n) = n % 2 ^ 32 := by
  simp only [beUint32, beBytesToNat, List.foldl]
  omega

/-- Claim C1: qtQCompress frames the data with a 4-byte big-endian length
header followed by the compressed stream, and decompressing the stream at
offset 4 reproduces the input exactly (compression is the abstract zlib
model, assumed to round-trip at every valid level). -/
theorem qtQCompress_frame_roundtrip (z : ZlibModel)
    (hz : ∀ d l, zlibValidLevel l = true → z.decompress (z.compress d l) = some d)
    (data : List Nat) (level : Int) (hl : zlibValidLevel level = true)
    (hlen : data.length < 2 ^ 32) :
    ∃ out, qtQCompress z data level = some out ∧
      out.take 4 = beUint32 data.length ∧
      beBytesToNat (out.take 4) = data.length ∧
      z.decompress (out.drop 4) = some data := by
  have h4 : (beUint32 data.length).length = 4 := rfl
  refine ⟨beUint32 data.length ++ z.compress data level, ?_, ?_, ?_, ?_⟩
  · simp [qtQCompress, hl]
  · rw [← h4, List.take_left]
  · rw [← h4, List.take_left, beBytesToNat_beUint32, Nat.mod_eq_of_lt hlen]
  · rw [← h4, List.drop_left]
    exact hz data level hl

theorem qtQCompress_frame_roundtrip_w :
    zlibValidLevel 8 = true ∧
    ∃ out, qtQCompress idZlib [10, 20, 30] 8 = some out ∧
      out.take 4 = beUint32 3 ∧
      beBytesToNat (out.take 4) = 3 ∧
      idZlib.decompress (out.drop 4) = some [10, 20, 30] :=
  ⟨by decide,
   qtQCompress_frame_roundtrip idZlib (fun _ _ _ => rfl) [10, 20, 30] 8 (by decide)
     (by norm_num)⟩

/-- Claim C2: buildAmneziaAwgVpnLink fails exactly on a nil peer or a
missing advanced-security block, and otherwise returns the string vpn://
followed by the unpadded URL-safe base64 encoding of the framed envelope. -/
theorem buildAmneziaAwgVpnLink_spec (z : ZlibModel) (pk : String → String)
    (description configText : String) :
    buildAmneziaAwgVpnLink z pk none description configText = .error "nil peer" ∧
    (∀ p : Peer, p.interface.advancedSecurity = none →
      buildAmneziaAwgVpnLink z pk (some p) description configText =
        .error "missing advanced security") ∧
    (∀ (p : Peer) (a : AdvancedSecurity), p.interface.advancedSecurity = some a →
      ∃ framed,
        qtQCompress z (strBytes (amneziaVpnPayload pk p description configText)) 8 =
          some framed ∧
        buildAmneziaAwgVpnLink z pk (some p) description configText =
          .ok ("vpn://" ++ String.mk (base64RawUrlEncode framed))) := by
  refine ⟨rfl, ?_, ?_⟩
  · intro p hp
    simp [buildAmneziaAwgVpnLink, hp]
  · intro p a hp
    have hq : qtQCompress z (strBytes (amneziaVpnPayload pk p description configText)) 8 =
        some (beUint32 (strBytes (amneziaVpnPayload pk p description configText)).length ++
          z.compress (strBytes (amneziaVpnPayload pk p description configText)) 8) := by
      simp [qtQCompress, zlibValidLevel]
    exact ⟨_, hq, by simp [buildAmneziaAwgVpnLink, hp, hq]⟩

theorem buildAmneziaAwgVpnLink_spec_w :
    buildAmneziaAwgVpnLink idZlib pkNone none "d" "c" = .error "nil peer" ∧
    buildAmneziaAwgVpnLink idZlib pkNone (some peerWNoAdv) "d" "c" =
      .error "missing advanced security" ∧
    ∃ framed,
      qtQCompress idZlib (strBytes (amneziaVpnPayload pkNone peerW "d" "c")) 8 = some framed ∧
      buildAmneziaAwgVpnLink idZlib pkNone (some peerW) "d" "c" =
        .ok ("vpn://" ++ String.mk (base64RawUrlEncode framed)) :=
  ⟨(buildAmneziaAwgVpnLink_spec idZlib pkNone "d" "c").1,
   (buildAmneziaAwgVpnLink_spec idZlib pkNone "d" "c").2.1 peerWNoAdv rfl,
   (buildAmneziaAwgVpnLink_spec idZlib pkNone "d" "c").2.2 peerW AdvancedSecurity.zero rfl⟩

/-- Claim C10: when an interface event carries SaveConfig = false, the
auto-persist handler and the auto-remove handler perform no file-system
call at all. -/
theorem handleInterfaceEvents_no_fs_when_saveConfig_false
    (env : ConfigFileEnv) (iface : InterfaceRec) (h : iface.saveConfig = false) :
    handleInterfaceSavedEvent env iface = [] ∧
    handleInterfaceDeleteEvent env iface = [] := by
  constructor <;> simp [handleInterfaceSavedEvent, handleInterfaceDeleteEvent, h]

theorem handleInterfaceEvents_no_fs_when_saveConfig_false_w :
    ifaceRecW.saveConfig = false ∧
    handleInterfaceSavedEvent envW ifaceRecW = [] ∧
    handleInterfaceDeleteEvent envW ifaceRecW = [] :=
  ⟨rfl, handleInterfaceEvents_no_fs_when_saveConfig_false envW ifaceRecW rfl⟩

/-- Claim C5 counterexample: for the endpoint ":abc" the host:port split
succeeds with an empty parsed host and a non-integer port segment, but the
function returns the default host 127.0.0.1, not the parsed (empty) host. -/
theorem parseEndpointHostPort_counterexample :
    goSplitHostPort (goTrimSpace ":abc") = some ("", "abc") ∧
    goAtoi "abc" = none ∧
    parseEndpointHostPort ":abc" ≠ ("", 51820) ∧
    parseEndpointHostPort ":abc" = ("127.0.0.1", 51820) := by decide

/-- Claim C5 (amended): the endpoint examples resolve as stated, and for
every input whose host:port split succeeds with a non-integer port segment
the parsed host is kept with the default port 51820, except that a host
that trims to empty falls back to 127.0.0.1. -/
theorem parseEndpointHostPort_resolution :
    parseEndpointHostPort "" = ("127.0.0.1", 51820) ∧
    parseEndpointHostPort "   " = ("127.0.0.1", 51820) ∧
    parseEndpointHostPort "192.168.1.1" = ("192.168.1.1", 51820) ∧
    parseEndpointHostPort "192.168.1.1:51821" = ("192.168.1.1", 51821) ∧
    parseEndpointHostPort "[::1]:51821" = ("::1", 51821) ∧
    (∀ e h p, goSplitHostPort (goTrimSpace e) = some (h, p) → goAtoi p = none →
      parseEndpointHostPort e =
        (if goTrimSpace h = "" then "127.0.0.1" else goTrimSpace h, 51820)) := by
  refine ⟨by decide, by decide, by decide, by decide, by decide, ?_⟩
  intro e h p hsplit hatoi
  have hne : ¬ (goTrimSpace e = "") := by
    intro h0
    rw [h0] at hsplit
    simp [goSplitHostPort, lastIndexOf] at hsplit
  simp only [parseEndpointHostPort]
  rw [if_neg hne, hsplit]
  by_cases hh : goTrimSpace h = "" <;> simp [hh, hatoi]

theorem parseEndpointHostPort_resolution_w :
    parseEndpointHostPort ":abc" =
      (if goTrimSpace "" = "" then "127.0.0.1" else goTrimSpace "", 51820) :=
  parseEndpointHostPort_resolution.2.2.2.2.2 ":abc" "" "abc" (by decide) (by decide)

/-- Claim C6 counterexample: the entry "a b" loses its interior space, so
the output entry is not the input entry with only surrounding whitespace
removed. -/
theorem splitCsvOrDefault_counterexample :
    goTrimSpace "a b" = "a b" ∧
    splitCsvOrDefault "a b" "x,y" = ["ab"] ∧
    ("ab" : String) ≠ "a b" := by decide

theorem splitCsvItems_eq (l : List String) :
    splitCsvItems l = (l.map goTrimSpace).filter (fun s => s ≠ "") := by
  induction l with
  | nil => rfl
  | cons x xs ih =>
    by_cases h : goTrimSpace x = "" <;> simp [splitCsvItems, h, ih]

/-- Claim C6 (amended): splitCsvOrDefault substitutes the fallback for an
effectively-empty input, removes every space character (interior spaces
included), splits on commas, trims remaining surrounding whitespace and
drops entries that become empty, as captured by specSplitCsv; consequently
pickDnsServers resolves the DNS examples as claimed and ignores entries
beyond the second. -/
theorem splitCsvOrDefault_spec (value fallback : String) :
    splitCsvOrDefault value fallback = specSplitCsv value fallback ∧
    pickDnsServers "" = ("1.1.1.1", "1.0.0.1") ∧
    pickDnsServers "8.8.8.8" = ("8.8.8.8", "1.0.0.1") ∧
    pickDnsServers "8.8.8.8,8.8.4.4" = ("8.8.8.8", "8.8.4.4") ∧
    pickDnsServers "1.1.1.1,8.8.8.8,9.9.9.9" = ("1.1.1.1", "8.8.8.8") := by
  refine ⟨?_, by decide, by decide, by decide, by decide⟩
  simp only [splitCsvOrDefault, specSplitCsv]
  by_cases hr : removeAllSpaces (if goTrimSpace value = "" then fallback else goTrimSpace value) = ""
  · rw [hr]
    decide
  · rw [if_neg hr, splitCsvItems_eq]

theorem natDigits_ne_nil (n : Nat) (h : n ≠ 0) : natDigits n ≠ [] := by
  unfold natDigits
  rw [dif_neg h]
  simp

theorem natDec_ne_empty (n : Nat) : natDec n ≠ "" := by
  unfold natDec
  by_cases h : n = 0
  · simp [h]
  · rw [if_neg h]
    intro heq
    have hd := congrArg String.data heq
    exact natDigits_ne_nil n h hd

theorem u16ToStringOptional_ne_iff (v : Nat) : u16ToStringOptional v ≠ "" ↔ v ≠ 0 := by
  unfold u16ToStringOptional
  by_cases h : v = 0 <;> simp [h, natDec_ne_empty]

theorem mem_jsonKeys_omitemptyStr (s key val : String) :
    s ∈ jsonKeys (omitemptyStr key val) ↔ s = key ∧ val ≠ "" := by
  unfold jsonKeys omitemptyStr
  by_cases h : val = "" <;> simp [h]

theorem jsonKeys_append (a b : List (String × Json)) :
    jsonKeys (a ++ b) = jsonKeys a ++ jsonKeys b :=
  List.map_append _ a b

theorem extParams_I1_ne_iff (a : AdvancedSecurity) :
    (amneziaAwgExtendedParams (some a)).I1 ≠ "" ↔
      optTrimNonempty a.firstSpecialJunkPacket := by
  simp only [amneziaAwgExtendedParams, optTrimNonempty]
  cases a.firstSpecialJunkPacket <;> simp

theorem extParams_I2_ne_iff (a : AdvancedSecurity) :
    (amneziaAwgExtendedParams (some a)).I2 ≠ "" ↔
      optTrimNonempty a.secondSpecialJunkPacket := by
  simp only [amneziaAwgExtendedParams, optTrimNonempty]
  cases a.secondSpecialJunkPacket <;> simp

theorem extParams_I3_ne_iff (a : AdvancedSecurity) :
    (amneziaAwgExtendedParams (some a)).I3 ≠ "" ↔
      optTrimNonempty a.thirdSpecialJunkPacket := by
  simp only [amneziaAwgExtendedParams, optTrimNonempty]
  cases a.thirdSpecialJunkPacket <;> simp

theorem extParams_I4_ne_iff (a : AdvancedSecurity) :
    (amneziaAwgExtendedParams (some a)).I4 ≠ "" ↔
      optTrimNonempty a.fourthSpecialJunkPacket := by
  simp only [amneziaAwgExtendedParams, optTrimNonempty]
  cases a.fourthSpecialJunkPacket <;> simp

theorem extParams_I5_ne_iff (a : AdvancedSecurity) :
    (amneziaAwgExtendedParams (some a)).I5 ≠ "" ↔
      optTrimNonempty a.fifthSpecialJunkPacket := by
  simp only [amneziaAwgExtendedParams, optTrimNonempty]
  cases a.fifthSpecialJunkPacket <;> simp

theorem extParams_S3_ne_iff (a : AdvancedSecurity) :
    (amneziaAwgExtendedParams (some a)).S3 ≠ "" ↔ a.cookieReplyPacketJunkSize ≠ 0 := by
  simp only [amneziaAwgExtendedParams]
  exact u16ToStringOptional_ne_iff _

theorem extParams_S4_ne_iff (a : AdvancedSecurity) :
    (amneziaAwgExtendedParams (some a)).S4 ≠ "" ↔ a.transportPacketJunkSize ≠ 0 := by
  simp only [amneziaAwgExtendedParams]
  exact u16ToStringOptional_ne_iff _

theorem mem_jsonKeys_awgParamFields (s : String) (b : AmneziaAwgBase)
    (e : AmneziaAwgExtended) :
    s ∈ jsonKeys (awgParamFields b e) ↔
      (s = "H1" ∨ s = "H2" ∨ s = "H3" ∨ s = "H4" ∨ s = "Jc" ∨ s = "Jmax" ∨
       s = "Jmin" ∨ s = "S1" ∨ s = "S2" ∨
       (s = "S3" ∧ e.S3 ≠ "") ∨ (s = "S4" ∧ e.S4 ≠ "") ∨
       (s = "I1" ∧ e.I1 ≠ "") ∨ (s = "I2" ∧ e.I2 ≠ "") ∨ (s = "I3" ∧ e.I3 ≠ "") ∨
       (s = "I4" ∧ e.I4 ≠ "") ∨ (s = "I5" ∧ e.I5 ≠ "")) := by
  simp only [awgParamFields, jsonKeys_append, List.mem_append,
    mem_jsonKeys_omitemptyStr]
  simp [jsonKeys, or_assoc]

/-- Membership of a key in the awg container object of the envelope. -/
theorem mem_jsonKeys_container (s : String) (b : AmneziaAwgBase)
    (e : AmneziaAwgExtended) (lastCfg port : String) :
    s ∈ jsonKeys (amneziaAwgContainerFields b e lastCfg port) ↔
      (s ∈ jsonKeys (awgParamFields b e) ∨ s = "last_config" ∨ s = "port" ∨
       s = "transport_proto") := by
  simp only [amneziaAwgContainerFields, jsonKeys_append, List.mem_append]
  simp [jsonKeys]

/-- Membership of a key in the inner last_config object. -/
theorem mem_jsonKeys_lastConfig (s : String) (b : AmneziaAwgBase)
    (e : AmneziaAwgExtended) (allowedIPs : List String)
    (cid cip cpriv cpub cfg host mtu ka : String) (port : Int) (psk spk : String) :
    s ∈ jsonKeys (amneziaAwgLastConfigFields b e allowedIPs cid cip cpriv cpub
        cfg host mtu ka port psk spk) ↔
      (s ∈ jsonKeys (awgParamFields b e) ∨ s = "allowed_ips" ∨ s = "clientId" ∨
       s = "client_ip" ∨ s = "client_priv_key" ∨ s = "client_pub_key" ∨
       s = "config" ∨ s = "hostName" ∨ s = "mtu" ∨ s = "persistent_keep_alive" ∨
       s = "port" ∨ s = "psk_key" ∨ s = "server_pub_key") := by
  simp only [amneziaAwgLastConfigFields, jsonKeys_append, List.mem_append]
  simp [jsonKeys]

/-- Claim C3: in the JSON objects built for the envelope's awg container
and the inner last_config record, the keys H1..H4, Jc, Jmax, Jmin, S1 and
S2 are always present, while S3/S4 appear iff the corresponding junk size
is non-zero and I1..I5 appear iff the corresponding special junk packet is
a non-nil pointer with a non-empty trimmed value. -/
theorem awgJson_key_presence (a : AdvancedSecurity) (lastCfg portStr : String)
    (allowedIPs : List String) (cid cip cpriv cpub cfg host mtu ka : String)
    (port : Int) (psk spk : String) :
    let b := amneziaAwgBaseParams (some a)
    let e := amneziaAwgExtendedParams (some a)
    let K := jsonKeys (amneziaAwgContainerFields b e lastCfg portStr)
    let L := jsonKeys (amneziaAwgLastConfigFields b e allowedIPs cid cip cpriv
      cpub cfg host mtu ka port psk spk)
    ("H1" ∈ K ∧ "H2" ∈ K ∧ "H3" ∈ K ∧ "H4" ∈ K ∧
     "Jc" ∈ K ∧ "Jmax" ∈ K ∧ "Jmin" ∈ K ∧ "S1" ∈ K ∧ "S2" ∈ K) ∧
    ("H1" ∈ L ∧ "H2" ∈ L ∧ "H3" ∈ L ∧ "H4" ∈ L ∧
     "Jc" ∈ L ∧ "Jmax" ∈ L ∧ "Jmin" ∈ L ∧ "S1" ∈ L ∧ "S2" ∈ L) ∧
    (("S3" ∈ K ↔ a.cookieReplyPacketJunkSize ≠ 0) ∧
     ("S3" ∈ L ↔ a.cookieReplyPacketJunkSize ≠ 0)) ∧
    (("S4" ∈ K ↔ a.transportPacketJunkSize ≠ 0) ∧
     ("S4" ∈ L ↔ a.transportPacketJunkSize ≠ 0)) ∧
    (("I1" ∈ K ↔ optTrimNonempty a.firstSpecialJunkPacket) ∧
     ("I1" ∈ L ↔ optTrimNonempty a.firstSpecialJunkPacket)) ∧
    (("I2" ∈ K ↔ optTrimNonempty a.secondSpecialJunkPacket) ∧
     ("I2" ∈ L ↔ optTrimNonempty a.secondSpecialJunkPacket)) ∧
    (("I3" ∈ K ↔ optTrimNonempty a.thirdSpecialJunkPacket) ∧
     ("I3" ∈ L ↔ optTrimNonempty a.thirdSpecialJunkPacket)) ∧
    (("I4" ∈ K ↔ optTrimNonempty a.fourthSpecialJunkPacket) ∧
     ("I4" ∈ L ↔ optTrimNonempty a.fourthSpecialJunkPacket)) ∧
    (("I5" ∈ K ↔ optTrimNonempty a.fifthSpecialJunkPacket) ∧
     ("I5" ∈ L ↔ optTrimNonempty a.fifthSpecialJunkPacket)) := by
  simp only [mem_jsonKeys_container, mem_jsonKeys_lastConfig,
    mem_jsonKeys_awgParamFields, extParams_S3_ne_iff, extParams_S4_ne_iff,
    extParams_I1_ne_iff, extParams_I2_ne_iff, extParams_I3_ne_iff,
    extParams_I4_ne_iff, extParams_I5_ne_iff]
  simp

theorem validateAwgSpecialJunk_ok (s : AdvancedSecurity)
    (h1 : ∃ v, validateAwgStringPtr s.firstSpecialJunkPacket = .ok v)
    (h2 : ∃ v, validateAwgStringPtr s.secondSpecialJunkPacket = .ok v)
    (h3 : ∃ v, validateAwgStringPtr s.thirdSpecialJunkPacket = .ok v)
    (h4 : ∃ v, validateAwgStringPtr s.fourthSpecialJunkPacket = .ok v)
    (h5 : ∃ v, validateAwgStringPtr s.fifthSpecialJunkPacket = .ok v) :
    (validateAwgSpecialJunk s).err = none := by
  obtain ⟨v1, h1⟩ := h1
  obtain ⟨v2, h2⟩ := h2
  obtain ⟨v3, h3⟩ := h3
  obtain ⟨v4, h4⟩ := h4
  obtain ⟨v5, h5⟩ := h5
  simp [validateAwgSpecialJunk, h1, h2, h3, h4, h5]

theorem validateAwgHeaders_ok_eq (s : AdvancedSecurity)
    (g1 : validateAwgUint32IfSet s.initPacketMagicHeader = true)
    (g2 : validateAwgUint32IfSet s.responsePacketMagicHeader = true)
    (g3 : validateAwgUint32IfSet s.underloadPacketMagicHeader = true)
    (g4 : validateAwgUint32IfSet s.transportPacketMagicHeader = true) :
    validateAwgHeaders s = validateAwgSpecialJunk s := by
  simp [validateAwgHeaders, g1, g2, g3, g4]

/-- Claim C4 counterexample: a block with jc > 0, a coherent junk range,
and an unparsable magic header is rejected, so validation does not fail
only on the jmin/jmax conditions. -/
theorem validateAdvancedSecurity_jc_counterexample :
    0 < advBadHeaderRange.junkPacketCount ∧
    advBadHeaderRange.junkPacketMinSize ≠ 0 ∧
    advBadHeaderRange.junkPacketMaxSize ≠ 0 ∧
    ¬ advBadHeaderRange.junkPacketMaxSize < advBadHeaderRange.junkPacketMinSize ∧
    (validateAdvancedSecurity advBadHeaderRange).err ≠ none := by decide

/-- Claim C4 (amended): for every parameter block whose magic headers and
special junk packets pass their own checks, validation fails iff jc > 0
with jmin = 0 or jmax = 0 or jmin > jmax; in particular a block with
jc = 0 but jmin or jmax set passes (only a warning is logged). -/
theorem validateAdvancedSecurity_junk_iff (s : AdvancedSecurity)
    (g1 : validateAwgUint32IfSet s.initPacketMagicHeader = true)
    (g2 : validateAwgUint32IfSet s.responsePacketMagicHeader = true)
    (g3 : validateAwgUint32IfSet s.underloadPacketMagicHeader = true)
    (g4 : validateAwgUint32IfSet s.transportPacketMagicHeader = true)
    (h1 : ∃ v, validateAwgStringPtr s.firstSpecialJunkPacket = .ok v)
    (h2 : ∃ v, validateAwgStringPtr s.secondSpecialJunkPacket = .ok v)
    (h3 : ∃ v, validateAwgStringPtr s.thirdSpecialJunkPacket = .ok v)
    (h4 : ∃ v, validateAwgStringPtr s.fourthSpecialJunkPacket = .ok v)
    (h5 : ∃ v, validateAwgStringPtr s.fifthSpecialJunkPacket = .ok v) :
    (validateAdvancedSecurity s).err ≠ none ↔
      0 < s.junkPacketCount ∧
        (s.junkPacketMinSize = 0 ∨ s.junkPacketMaxSize = 0 ∨
         s.junkPacketMaxSize < s.junkPacketMinSize) := by
  have hok : (validateAwgHeaders s).err = none := by
    rw [validateAwgHeaders_ok_eq s g1 g2 g3 g4]
    exact validateAwgSpecialJunk_ok s h1 h2 h3 h4 h5
  unfold validateAdvancedSecurity
  by_cases hc : 0 < s.junkPacketCount
  · rw [if_pos hc]
    by_cases hz : s.junkPacketMinSize = 0 ∨ s.junkPacketMaxSize = 0
    · rw [if_pos hz]
      simp [hc, hz]
      tauto
    · rw [if_neg hz]
      by_cases hlt : s.junkPacketMaxSize < s.junkPacketMinSize
      · rw [if_pos hlt]
        simp [hc, hlt]
      · rw [if_neg hlt]
        rw [hok]
        push_neg at hz
        simp [hc, hz.1, hz.2, hlt]
  · rw [if_neg hc]
    rw [hok]
    simp [hc]

theorem validateAdvancedSecurity_junk_iff_w :
    (validateAdvancedSecurity advBadRange).err ≠ none ∧
    0 < advBadRange.junkPacketCount ∧ advBadRange.junkPacketMinSize = 0 :=
  ⟨(validateAdvancedSecurity_junk_iff advBadRange rfl rfl rfl rfl
      ⟨none, rfl⟩ ⟨none, rfl⟩ ⟨none, rfl⟩ ⟨none, rfl⟩ ⟨none, rfl⟩).mpr
      (by decide),
   by decide, by decide⟩

theorem validateAwgStringPtr_ok_shape (o v : Option String)
    (h : validateAwgStringPtr o = .ok v) : v = o ∨ v = o.map goTrimSpace := by
  cases o with
  | none =>
    simp only [validateAwgStringPtr, Except.ok.injEq] at h
    exact Or.inl h.symm
  | some t =>
    simp only [validateAwgStringPtr] at h
    by_cases he : goTrimSpace t = ""
    · rw [if_pos he] at h
      simp at h
    · rw [if_neg he] at h
      by_cases hl : maxAwgStringLen ≤ (strBytes (goTrimSpace t)).length
      · rw [if_pos hl] at h
        simp at h
      · rw [if_neg hl] at h
        simp only [Except.ok.injEq] at h
        exact Or.inr (by simp [← h])

theorem framePreserved_refl (s : AdvancedSecurity) : FramePreserved s s := by
  unfold FramePreserved
  simp

theorem validateAwgSpecialJunk_frame (s : AdvancedSecurity) :
    FramePreserved s (validateAwgSpecialJunk s).final := by
  unfold validateAwgSpecialJunk
  cases h1 : validateAwgStringPtr s.firstSpecialJunkPacket with
  | error e1 => exact framePreserved_refl s
  | ok v1 =>
    dsimp only
    cases h2 : validateAwgStringPtr s.secondSpecialJunkPacket with
    | error e2 =>
      exact ⟨rfl, rfl, rfl, rfl, rfl, rfl, rfl, rfl, rfl, rfl, rfl,
        validateAwgStringPtr_ok_shape _ _ h1, Or.inl rfl, Or.inl rfl, Or.inl rfl, Or.inl rfl⟩
    | ok v2 =>
      dsimp only
      cases h3 : validateAwgStringPtr s.thirdSpecialJunkPacket with
      | error e3 =>
        exact ⟨rfl, rfl, rfl, rfl, rfl, rfl, rfl, rfl, rfl, rfl, rfl,
          validateAwgStringPtr_ok_shape _ _ h1, validateAwgStringPtr_ok_shape _ _ h2,
          Or.inl rfl, Or.inl rfl, Or.inl rfl⟩
      | ok v3 =>
        dsimp only
        cases h4 : validateAwgStringPtr s.fourthSpecialJunkPacket with
        | error e4 =>
          exact ⟨rfl, rfl, rfl, rfl, rfl, rfl, rfl, rfl, rfl, rfl, rfl,
            validateAwgStringPtr_ok_shape _ _ h1, validateAwgStringPtr_ok_shape _ _ h2,
            validateAwgStringPtr_ok_shape _ _ h3, Or.inl rfl, Or.inl rfl⟩
        | ok v4 =>
          dsimp only
          cases h5 : validateAwgStringPtr s.fifthSpecialJunkPacket with
          | error e5 =>
            exact ⟨rfl, rfl, rfl, rfl, rfl, rfl, rfl, rfl, rfl, rfl, rfl,
              validateAwgStringPtr_ok_shape _ _ h1, validateAwgStringPtr_ok_shape _ _ h2,
              validateAwgStringPtr_ok_shape _ _ h3, validateAwgStringPtr_ok_shape _ _ h4,
              Or.inl rfl⟩
          | ok v5 =>
            exact ⟨rfl, rfl, rfl, rfl, rfl, rfl, rfl, rfl, rfl, rfl, rfl,
              validateAwgStringPtr_ok_shape _ _ h1, validateAwgStringPtr_ok_shape _ _ h2,
              validateAwgStringPtr_ok_shape _ _ h3, validateAwgStringPtr_ok_shape _ _ h4,
              validateAwgStringPtr_ok_shape _ _ h5⟩

theorem validateAwgHeaders_frame (s : AdvancedSecurity) :
    FramePreserved s (validateAwgHeaders s).final := by
  unfold validateAwgHeaders
  split_ifs
  all_goals first
    | exact framePreserved_refl s
    | exact validateAwgSpecialJunk_frame s

/-- Claim C8 counterexample: validation of a block whose first special
junk packet is " x " succeeds but writes the trimmed value "x" back, so a
field does not hold the value it held before the call. -/
theorem validateAdvancedSecurity_mutation_counterexample :
    (validateAdvancedSecurity advTrimCase).err = none ∧
    (validateAdvancedSecurity advTrimCase).final ≠ advTrimCase ∧
    advTrimCase.firstSpecialJunkPacket = some " x " ∧
    (validateAdvancedSecurity advTrimCase).final.firstSpecialJunkPacket = some "x" := by
  decide

/-- Claim C8 (amended): validation leaves every field of the block
unchanged except the five special-junk-packet strings, each of which is
either unchanged or replaced by its trimmed value (both on success and on
error). -/
theorem validateAdvancedSecurity_frame (s : AdvancedSecurity) :
    FramePreserved s (validateAdvancedSecurity s).final := by
  unfold validateAdvancedSecurity
  split_ifs
  all_goals first
    | exact framePreserved_refl s
    | exact validateAwgHeaders_frame s

theorem checkRest_ne_badMode (pp : String → Bool) (m : String)
    (i : ProvisioningInterface) :
    checkProvisioningInterfaceRest pp m i ≠ .error .badMode := by
  intro h
  unfold checkProvisioningInterfaceRest at h
  repeat' split at h
  all_goals simp_all

theorem checkRest_err_of_adv (pp : String → Bool) (m : String)
    (i : ProvisioningInterface) (hadv : i.advancedSecurity.isSome = true)
    (hm : m ≠ "amneziawg") :
    ∃ e, checkProvisioningInterfaceRest pp m i = .error e := by
  obtain ⟨a, ha⟩ := Option.isSome_iff_exists.mp hadv
  unfold checkProvisioningInterfaceRest
  rw [ha]
  repeat' split
  all_goals first
    | exact ⟨_, rfl⟩
    | simp_all

theorem checkIface_badMode_iff (pp : String → Bool) (m : String)
    (iface : ProvisioningInterface) :
    checkProvisioningInterface pp m iface = .error .badMode ↔ provBadMode iface := by
  unfold checkProvisioningInterface
  unfold provBadMode normMode
  by_cases h : goToLower (goTrimSpace iface.mode) ≠ "" ∧
      goToLower (goTrimSpace iface.mode) ≠ "server" ∧
      goToLower (goTrimSpace iface.mode) ≠ "client" ∧
      goToLower (goTrimSpace iface.mode) ≠ "any"
  · simp only [if_pos h]
    simp [h]
  · simp only [if_neg h]
    exact iff_of_false (checkRest_ne_badMode _ _ _) h

theorem checkIface_err_of_adv (pp : String → Bool) (m : String)
    (iface : ProvisioningInterface) (hadv : iface.advancedSecurity.isSome = true)
    (hm : m ≠ "amneziawg") :
    ∃ e, checkProvisioningInterface pp m iface = .error e := by
  unfold checkProvisioningInterface
  by_cases h : goToLower (goTrimSpace iface.mode) ≠ "" ∧
      goToLower (goTrimSpace iface.mode) ≠ "server" ∧
      goToLower (goTrimSpace iface.mode) ≠ "client" ∧
      goToLower (goTrimSpace iface.mode) ≠ "any"
  · simp only [if_pos h]
    exact ⟨_, rfl⟩
  · simp only [if_neg h]
    apply checkRest_err_of_adv _ _ _ _ hm
    by_cases hmode : goToLower (goTrimSpace iface.mode) ≠ "" <;> simp [hmode, hadv]

theorem provBadMode_set_id (hd : ProvisioningInterface) (x : String) :
    provBadMode { hd with identifier := x } ↔ provBadMode hd :=
  Iff.rfl

theorem sanitizeLoop_err_of_violation (pp : String → Bool) (m : String) :
    ∀ (l : List ProvisioningInterface) (idx : Nat) (seen : List String),
      ((∃ i ∈ l, trimId i = "") ∨ (∃ i ∈ l, trimId i ∈ seen) ∨
       ¬ (l.map trimId).Nodup ∨ (∃ i ∈ l, provBadMode i)) →
      ∃ e, sanitizeLoop pp m idx seen l = .error e := by
  intro l
  induction l with
  | nil =>
    intro idx seen h
    simp at h
  | cons hd tl ih =>
    intro idx seen hv
    by_cases h1 : goTrimSpace hd.identifier = ""
    · exact ⟨.emptyIdentifier idx, by simp [sanitizeLoop, h1]⟩
    · by_cases h2 : goTrimSpace hd.identifier ∈ seen
      · exact ⟨.duplicateIdentifier (goTrimSpace hd.identifier),
          by simp [sanitizeLoop, h1, h2]⟩
      · cases hcheck : checkProvisioningInterface pp m
            { hd with identifier := goTrimSpace hd.identifier } with
        | error e => exact ⟨.interfaceErr (goTrimSpace hd.identifier) e,
            by simp [sanitizeLoop, h1, h2, hcheck]⟩
        | ok hd' =>
          have hbm : ¬ provBadMode hd := by
            intro hb
            have hb' := (checkIface_badMode_iff pp m
              { hd with identifier := goTrimSpace hd.identifier }).mpr
              ((provBadMode_set_id hd _).mpr hb)
            rw [hcheck] at hb'
            exact Except.noConfusion hb'
          have hv' : (∃ i ∈ tl, trimId i = "") ∨
              (∃ i ∈ tl, trimId i ∈ goTrimSpace hd.identifier :: seen) ∨
              ¬ (tl.map trimId).Nodup ∨ (∃ i ∈ tl, provBadMode i) := by
            rcases hv with ⟨i, hi, hti⟩ | ⟨i, hi, hti⟩ | hnd | ⟨i, hi, hbi⟩
            · rcases List.mem_cons.mp hi with rfl | hi'
              · exact absurd hti h1
              · exact Or.inl ⟨i, hi', hti⟩
            · rcases List.mem_cons.mp hi with rfl | hi'
              · exact absurd hti h2
              · exact Or.inr (Or.inl ⟨i, hi', List.mem_cons_of_mem _ hti⟩)
            · rw [List.map_cons, List.nodup_cons] at hnd
              by_cases hmem : trimId hd ∈ tl.map trimId
              · obtain ⟨i, hi, hti⟩ := List.mem_map.mp hmem
                refine Or.inr (Or.inl ⟨i, hi, ?_⟩)
                rw [hti]
                exact List.mem_cons_self _ _
              · refine Or.inr (Or.inr (Or.inl ?_))
                intro hnd'
                exact hnd ⟨hmem, hnd'⟩
            · rcases List.mem_cons.mp hi with rfl | hi'
              · exact absurd hbi hbm
              · exact Or.inr (Or.inr (Or.inr ⟨i, hi', hbi⟩))
          obtain ⟨e, he⟩ := ih (idx + 1) (goTrimSpace hd.identifier :: seen) hv'
          exact ⟨e, by simp [sanitizeLoop, h1, h2, hcheck, he]⟩

theorem sanitizeLoop_empty_sound (pp : String → Bool) (m : String) :
    ∀ (l : List ProvisioningInterface) (idx : Nat) (seen : List String) (k : Nat),
      sanitizeLoop pp m idx seen l = .error (.emptyIdentifier k) →
      ∃ i ∈ l, trimId i = "" := by
  intro l
  induction l with
  | nil =>
    intro idx seen k h
    simp [sanitizeLoop] at h
  | cons hd tl ih =>
    intro idx seen k h
    by_cases h1 : goTrimSpace hd.identifier = ""
    · exact ⟨hd, List.mem_cons_self _ _, h1⟩
    · by_cases h2 : goTrimSpace hd.identifier ∈ seen
      · simp [sanitizeLoop, h1, h2] at h
      · cases hcheck : checkProvisioningInterface pp m
            { hd with identifier := goTrimSpace hd.identifier } with
        | error e => simp [sanitizeLoop, h1, h2, hcheck] at h
        | ok hd' =>
          cases hrec : sanitizeLoop pp m (idx + 1) (goTrimSpace hd.identifier :: seen) tl with
          | error e' =>
            simp [sanitizeLoop, h1, h2, hcheck, hrec] at h
            subst h
            obtain ⟨i, hi, hti⟩ := ih (idx + 1) _ k hrec
            exact ⟨i, List.mem_cons_of_mem _ hi, hti⟩
          | ok r => simp [sanitizeLoop, h1, h2, hcheck, hrec] at h

theorem sanitizeLoop_dup_sound (pp : String → Bool) (m : String) :
    ∀ (l : List ProvisioningInterface) (idx : Nat) (seen : List String) (s : String),
      sanitizeLoop pp m idx seen l = .error (.duplicateIdentifier s) →
      (s ∈ seen ∧ s ∈ l.map trimId) ∨ 2 ≤ (l.map trimId).count s := by
  intro l
  induction l with
  | nil =>
    intro idx seen s h
    simp [sanitizeLoop] at h
  | cons hd tl ih =>
    intro idx seen s h
    by_cases h1 : goTrimSpace hd.identifier = ""
    · simp [sanitizeLoop, h1] at h
    · by_cases h2 : goTrimSpace hd.identifier ∈ seen
      · simp [sanitizeLoop, h1, h2] at h
        subst h
        exact Or.inl ⟨h2, by simp [trimId]⟩
      · cases hcheck : checkProvisioningInterface pp m
            { hd with identifier := goTrimSpace hd.identifier } with
        | error e => simp [sanitizeLoop, h1, h2, hcheck] at h
        | ok hd' =>
          cases hrec : sanitizeLoop pp m (idx + 1) (goTrimSpace hd.identifier :: seen) tl with
          | error e' =>
            simp [sanitizeLoop, h1, h2, hcheck, hrec] at h
            subst h
            rcases ih (idx + 1) _ s hrec with ⟨hseen, hmem⟩ | hcount
            · rcases List.mem_cons.mp hseen with heq | hseen'
              · refine Or.inr ?_
                have hc1 : 1 ≤ (tl.map trimId).count s := List.count_pos_iff.mpr hmem
                have : ((hd :: tl).map trimId).count s = (tl.map trimId).count s + 1 := by
                  rw [List.map_cons]
                  have hts : trimId hd = s := heq.symm
                  rw [← hts]
                  simp
                omega
              · exact Or.inl ⟨hseen', List.mem_cons_of_mem _ hmem⟩
            · refine Or.inr ?_
              rw [List.map_cons, List.count_cons]
              omega
          | ok r => simp [sanitizeLoop, h1, h2, hcheck, hrec] at h

theorem sanitizeLoop_badMode_sound (pp : String → Bool) (m : String) :
    ∀ (l : List ProvisioningInterface) (idx : Nat) (seen : List String) (s : String),
      sanitizeLoop pp m idx seen l = .error (.interfaceErr s .badMode) →
      ∃ i ∈ l, trimId i = s ∧ provBadMode i := by
  intro l
  induction l with
  | nil =>
    intro idx seen s h
    simp [sanitizeLoop] at h
  | cons hd tl ih =>
    intro idx seen s h
    by_cases h1 : goTrimSpace hd.identifier = ""
    · simp [sanitizeLoop, h1] at h
    · by_cases h2 : goTrimSpace hd.identifier ∈ seen
      · simp [sanitizeLoop, h1, h2] at h
      · cases hcheck : checkProvisioningInterface pp m
            { hd with identifier := goTrimSpace hd.identifier } with
        | error e =>
          simp [sanitizeLoop, h1, h2, hcheck] at h
          refine ⟨hd, List.mem_cons_self _ _, h.1, ?_⟩
          have hbm := (checkIface_badMode_iff pp m
            { hd with identifier := goTrimSpace hd.identifier }).mp
            (by rw [hcheck, h.2])
          exact (provBadMode_set_id hd _).mp hbm
        | ok hd' =>
          cases hrec : sanitizeLoop pp m (idx + 1) (goTrimSpace hd.identifier :: seen) tl with
          | error e' =>
            simp [sanitizeLoop, h1, h2, hcheck, hrec] at h
            subst h
            obtain ⟨i, hi, hti, hbi⟩ := ih (idx + 1) _ s hrec
            exact ⟨i, List.mem_cons_of_mem _ hi, hti, hbi⟩
          | ok r => simp [sanitizeLoop, h1, h2, hcheck, hrec] at h

theorem sanitizeLoop_no_idmode_err (pp : String → Bool) (m : String) :
    ∀ (l : List ProvisioningInterface) (idx : Nat) (seen : List String),
      (∀ i ∈ l, trimId i ≠ "") → (l.map trimId).Nodup →
      (∀ i ∈ l, trimId i ∉ seen) → (∀ i ∈ l, ¬ provBadMode i) →
      ∀ e, sanitizeLoop pp m idx seen l = .error e → idModeFree e := by
  intro l
  induction l with
  | nil =>
    intro idx seen _ _ _ _ e h
    simp [sanitizeLoop] at h
  | cons hd tl ih =>
    intro idx seen hne hnd hsn hbm e h
    have h1 : ¬ goTrimSpace hd.identifier = "" := hne hd (List.mem_cons_self _ _)
    have h2 : goTrimSpace hd.identifier ∉ seen := hsn hd (List.mem_cons_self _ _)
    rw [List.map_cons, List.nodup_cons] at hnd
    cases hcheck : checkProvisioningInterface pp m
        { hd with identifier := goTrimSpace hd.identifier } with
    | error e0 =>
      simp [sanitizeLoop, h1, h2, hcheck] at h
      subst h
      cases e0 with
      | badMode =>
        have hbm0 := (checkIface_badMode_iff pp m
          { hd with identifier := goTrimSpace hd.identifier }).mp hcheck
        exact absurd ((provBadMode_set_id hd _).mp hbm0) (hbm hd (List.mem_cons_self _ _))
      | badListenPort => trivial
      | badMtu => trivial
      | badPeerDefMtu => trivial
      | badCidr f i => trivial
      | advancedSecurityNotSupported => trivial
      | advancedSecurityInvalid e1 => trivial
    | ok hd' =>
      cases hrec : sanitizeLoop pp m (idx + 1) (goTrimSpace hd.identifier :: seen) tl with
      | error e' =>
        simp [sanitizeLoop, h1, h2, hcheck, hrec] at h
        subst h
        refine ih (idx + 1) (goTrimSpace hd.identifier :: seen)
          (fun i hi => hne i (List.mem_cons_of_mem _ hi)) hnd.2 ?_
          (fun i hi => hbm i (List.mem_cons_of_mem _ hi)) e' hrec
        intro i hi hmem
        rcases List.mem_cons.mp hmem with heq | hmem'
        · apply hnd.1
          have heq' : trimId hd = trimId i := heq.symm
          rw [heq']
          exact List.mem_map_of_mem trimId hi
        · exact hsn i (List.mem_cons_of_mem _ hi) hmem'
      | ok r => simp [sanitizeLoop, h1, h2, hcheck, hrec] at h

theorem sanitizeLoop_err_of_adv (pp : String → Bool) (m : String)
    (hm : m ≠ "amneziawg") :
    ∀ (l : List ProvisioningInterface) (idx : Nat) (seen : List String),
      (∃ i ∈ l, i.advancedSecurity.isSome = true) →
      ∃ e, sanitizeLoop pp m idx seen l = .error e := by
  intro l
  induction l with
  | nil =>
    intro idx seen h
    simp at h
  | cons hd tl ih =>
    intro idx seen hv
    by_cases h1 : goTrimSpace hd.identifier = ""
    · exact ⟨.emptyIdentifier idx, by simp [sanitizeLoop, h1]⟩
    · by_cases h2 : goTrimSpace hd.identifier ∈ seen
      · exact ⟨.duplicateIdentifier (goTrimSpace hd.identifier),
          by simp [sanitizeLoop, h1, h2]⟩
      · cases hcheck : checkProvisioningInterface pp m
            { hd with identifier := goTrimSpace hd.identifier } with
        | error e => exact ⟨.interfaceErr (goTrimSpace hd.identifier) e,
            by simp [sanitizeLoop, h1, h2, hcheck]⟩
        | ok hd' =>
          have hdadv : ¬ hd.advancedSecurity.isSome = true := by
            intro hs
            obtain ⟨e0, he0⟩ := checkIface_err_of_adv pp m
              { hd with identifier := goTrimSpace hd.identifier } hs hm
            rw [hcheck] at he0
            exact Except.noConfusion he0
          have hv' : ∃ i ∈ tl, i.advancedSecurity.isSome = true := by
            rcases hv with ⟨i, hi, hsome⟩
            rcases List.mem_cons.mp hi with rfl | hi'
            · exact absurd hsome hdadv
            · exact ⟨i, hi', hsome⟩
          obtain ⟨e, he⟩ := ih (idx + 1) (goTrimSpace hd.identifier :: seen) hv'
          exact ⟨e, by simp [sanitizeLoop, h1, h2, hcheck, he]⟩

/-- Claim C7: provisioning-spec validation rejects any spec with an empty
or duplicated trimmed identifier or an invalid mode; the error names a
genuinely offending identifier (the emptyIdentifier error carries the input
index, since the offending identifier is empty); and a spec free of these
violations never fails with an identifier or mode error. -/
theorem sanitizeProvisioningInterfaces_id_mode (pp : String → Bool) (m : String)
    (ifaces : List ProvisioningInterface) :
    (hasIdModeViolation ifaces →
      ∃ e, sanitizeProvisioningInterfaces pp m ifaces = .error e) ∧
    (∀ k, sanitizeProvisioningInterfaces pp m ifaces = .error (.emptyIdentifier k) →
      ∃ i ∈ ifaces, trimId i = "") ∧
    (∀ s, sanitizeProvisioningInterfaces pp m ifaces = .error (.duplicateIdentifier s) →
      2 ≤ (ifaces.map trimId).count s) ∧
    (∀ s, sanitizeProvisioningInterfaces pp m ifaces = .error (.interfaceErr s .badMode) →
      ∃ i ∈ ifaces, trimId i = s ∧ provBadMode i) ∧
    (¬ hasIdModeViolation ifaces →
      ∀ e, sanitizeProvisioningInterfaces pp m ifaces = .error e → idModeFree e) := by
  unfold sanitizeProvisioningInterfaces
  by_cases hlen : ifaces.length = 0
  · have hnil : ifaces = [] := List.length_eq_zero.mp hlen
    subst hnil
    refine ⟨?_, ?_, ?_, ?_, ?_⟩ <;> simp [hasIdModeViolation]
  · rw [if_neg hlen]
    refine ⟨?_, ?_, ?_, ?_, ?_⟩
    · intro hv
      apply sanitizeLoop_err_of_violation pp m ifaces 0 []
      rcases hv with a | b | c
      · exact Or.inl a
      · exact Or.inr (Or.inr (Or.inl b))
      · exact Or.inr (Or.inr (Or.inr c))
    · intro k h
      exact sanitizeLoop_empty_sound pp m ifaces 0 [] k h
    · intro s h
      rcases sanitizeLoop_dup_sound pp m ifaces 0 [] s h with ⟨hseen, _⟩ | hcount
      · exact absurd hseen (List.not_mem_nil s)
      · exact hcount
    · intro s h
      exact sanitizeLoop_badMode_sound pp m ifaces 0 [] s h
    · intro hv e h
      unfold hasIdModeViolation at hv
      push_neg at hv
      refine sanitizeLoop_no_idmode_err pp m ifaces 0 [] hv.1 ?_ ?_ hv.2.2 e h
      · exact hv.2.1
      · intro i _ hmem
        exact absurd hmem (List.not_mem_nil _)

theorem sanitizeProvisioningInterfaces_id_mode_w :
    hasIdModeViolation [ifaceWg0, ifaceWg0] ∧
    ∃ e, sanitizeProvisioningInterfaces ppAll "disabled" [ifaceWg0, ifaceWg0] = .error e :=
  ⟨by decide,
   (sanitizeProvisioningInterfaces_id_mode ppAll "disabled" [ifaceWg0, ifaceWg0]).1
     (by decide)⟩

/-- Claim C9: config sanitization rejects every configuration in which a
provisioning interface carries an advanced-security block while the (trimmed
and lower-cased) WireGuard mode is not amneziawg. -/
theorem configSanitize_adv_requires_amneziawg (pp : String → Bool) (cfg : ConfigModel)
    (hm : goTrimSpace (goToLower cfg.coreWireGuardMode) ≠ "amneziawg")
    (hadv : ∃ i ∈ cfg.provisioningInterfaces, i.advancedSecurity.isSome = true) :
    ∃ e, configSanitize pp cfg = .error e := by
  simp only [configSanitize]
  have hmm : (if goTrimSpace (goToLower cfg.coreWireGuardMode) = "" then "disabled"
      else goTrimSpace (goToLower cfg.coreWireGuardMode)) ≠ "amneziawg" := by
    by_cases hz : goTrimSpace (goToLower cfg.coreWireGuardMode) = ""
    · rw [if_pos hz]
      decide
    · rw [if_neg hz]
      exact hm
  by_cases hval : (if goTrimSpace (goToLower cfg.coreWireGuardMode) = "" then "disabled"
      else goTrimSpace (goToLower cfg.coreWireGuardMode)) = "disabled" ∨
      (if goTrimSpace (goToLower cfg.coreWireGuardMode) = "" then "disabled"
      else goTrimSpace (goToLower cfg.coreWireGuardMode)) = "wireguard" ∨
      (if goTrimSpace (goToLower cfg.coreWireGuardMode) = "" then "disabled"
      else goTrimSpace (goToLower cfg.coreWireGuardMode)) = "amneziawg"
  · rw [if_pos hval]
    have hlen : ¬ cfg.provisioningInterfaces.length = 0 := by
      obtain ⟨i, hi, _⟩ := hadv
      cases hl : cfg.provisioningInterfaces with
      | nil => rw [hl] at hi; exact absurd hi (List.not_mem_nil i)
      | cons a l => simp [hl]
    unfold sanitizeProvisioningInterfaces
    rw [if_neg hlen]
    obtain ⟨e, he⟩ := sanitizeLoop_err_of_adv pp _ hmm
      cfg.provisioningInterfaces 0 [] hadv
    exact ⟨.prov e, by rw [he]⟩
  · rw [if_neg hval]
    exact ⟨_, rfl⟩

theorem configSanitize_adv_requires_amneziawg_w :
    goTrimSpace (goToLower cfgW.coreWireGuardMode) ≠ "amneziawg" ∧
    ∃ e, configSanitize ppAll cfgW = .error e :=
  ⟨by decide,
   configSanitize_adv_requires_amneziawg ppAll cfgW (by decide) (by decide)⟩

end WgPortal
